import Mathlib

/-!
Verification of the geometric projection and kinematic smoothing core of the
trafficlab-3d repository, shallowly embedded in Lean 4.

Floating-point arithmetic of the Python source is modelled by exact rational
arithmetic where the code is purely algebraic, and by real arithmetic where
the code uses transcendental functions (square roots, trigonometry).  The
embedding follows the control flow of the source functions statement by
statement; names follow the source.
-/

/-! ## Parallax model, from GProjection in gui/core/g_projection.py -/

/-- Parallax parameters of GProjection: camera height above the ground plane
and the camera ground-footprint position in map-pixel coordinates. -/
structure Parallax where
  z_cam : ℚ
  cam_sat : ℚ × ℚ

/-- Embeds GProjection.parallax_correct_ground_to_real: moves an apparent
map point toward the camera footprint by the factor (z_cam - h) / z_cam;
returns the input unchanged when z_cam = 0. -/
def parallax_correct_ground_to_real (P : Parallax) (apparent_sat_pt : ℚ × ℚ) (h : ℚ) : ℚ × ℚ :=
  if P.z_cam = 0 then apparent_sat_pt
  else
    let factor := (P.z_cam - h) / P.z_cam
    (P.cam_sat.1 + (apparent_sat_pt.1 - P.cam_sat.1) * factor,
     P.cam_sat.2 + (apparent_sat_pt.2 - P.cam_sat.2) * factor)

/-- Embeds GProjection.parallax_project_real_to_ground: moves a real map
point away from the camera footprint by the factor z_cam / (z_cam - h);
returns the input unchanged when the absolute difference between z_cam and h
is below the 0.01 fallback threshold of the source. -/
def parallax_project_real_to_ground (P : Parallax) (real_sat_pt : ℚ × ℚ) (h : ℚ) : ℚ × ℚ :=
  if |P.z_cam - h| < 1/100 then real_sat_pt
  else
    let factor := P.z_cam / (P.z_cam - h)
    (P.cam_sat.1 + (real_sat_pt.1 - P.cam_sat.1) * factor,
     P.cam_sat.2 + (real_sat_pt.2 - P.cam_sat.2) * factor)

/-! ## Homography construction, from GProjection in gui/core/g_projection.py

GProjection reads the homography matrix H from its configuration and inverts
it with numpy.  numpy.linalg.inv raises numpy.linalg.LinAlgError when the
matrix is singular (and also when the configuration entry is missing, since
the resulting array is not 2-dimensional).  No ConfigError class exists
anywhere in the repository; the error enumeration below nevertheless carries
a configError constructor so the specified behaviour can be compared against
the implemented one. -/

/-- Python exception classes relevant to construction of the projection
core.  The source can only raise linAlgError here; configError is the error
class named by the specification and exists in no source file. -/
inductive PyError where
  | linAlgError
  | configError
deriving DecidableEq

/-- A 3x3 rational matrix with explicitly named entries, modelling the
numpy homography matrix H. -/
structure Mat3 where
  a : ℚ
  b : ℚ
  c : ℚ
  d : ℚ
  e : ℚ
  f : ℚ
  g : ℚ
  h : ℚ
  i : ℚ
deriving DecidableEq

/-- Determinant of a 3x3 matrix by cofactor expansion along the first row. -/
def Mat3.det (m : Mat3) : ℚ :=
  m.a * (m.e * m.i - m.f * m.h) - m.b * (m.d * m.i - m.f * m.g)
    + m.c * (m.d * m.h - m.e * m.g)

/-- Adjugate (transposed cofactor matrix) of a 3x3 matrix. -/
def Mat3.adjugate (m : Mat3) : Mat3 :=
  ⟨m.e * m.i - m.f * m.h, m.c * m.h - m.b * m.i, m.b * m.f - m.c * m.e,
   m.f * m.g - m.d * m.i, m.a * m.i - m.c * m.g, m.c * m.d - m.a * m.f,
   m.d * m.h - m.e * m.g, m.b * m.g - m.a * m.h, m.a * m.e - m.b * m.d⟩

/-- Scalar multiple of a 3x3 matrix. -/
def Mat3.smul (q : ℚ) (m : Mat3) : Mat3 :=
  ⟨q * m.a, q * m.b, q * m.c, q * m.d, q * m.e, q * m.f, q * m.g, q * m.h, q * m.i⟩

/-- Matrix product of two 3x3 matrices. -/
def Mat3.mul (m n : Mat3) : Mat3 :=
  ⟨m.a * n.a + m.b * n.d + m.c * n.g, m.a * n.b + m.b * n.e + m.c * n.h,
   m.a * n.c + m.b * n.f + m.c * n.i,
   m.d * n.a + m.e * n.d + m.f * n.g, m.d * n.b + m.e * n.e + m.f * n.h,
   m.d * n.c + m.e * n.f + m.f * n.i,
   m.g * n.a + m.h * n.d + m.i * n.g, m.g * n.b + m.h * n.e + m.i * n.h,
   m.g * n.c + m.h * n.f + m.i * n.i⟩

/-- Identity 3x3 matrix. -/
def Mat3.one : Mat3 := ⟨1, 0, 0, 0, 1, 0, 0, 0, 1⟩

/-- The exact inverse of a 3x3 matrix with nonzero determinant. -/
def Mat3.inv (m : Mat3) : Mat3 := Mat3.smul (1 / m.det) m.adjugate

/-- Embeds numpy.linalg.inv on the homography matrix: raises LinAlgError on
a singular matrix, otherwise produces the exact inverse. -/
def np_linalg_inv (H : Mat3) : Except PyError Mat3 :=
  if H.det = 0 then Except.error PyError.linAlgError else Except.ok H.inv

/-- Embeds the homography part of GProjection init_matrices: the optional
configuration entry H (none models a missing entry, for which numpy raises
LinAlgError because the array is not 2-dimensional) is inverted with
numpy.linalg.inv; on success the pair (H, H_inv) is stored. -/
def init_matrices (H? : Option Mat3) : Except PyError (Mat3 × Mat3) :=
  match H? with
  | none => Except.error PyError.linAlgError
  | some H =>
    match np_linalg_inv H with
    | Except.error err => Except.error err
    | Except.ok Hinv => Except.ok (H, Hinv)

/-! ## Real-valued primitives shared by the smoother and the guideline index

Python float operations are modelled over the real numbers: math.atan2 is
Complex.arg, math.degrees multiplies by 180 / pi, the float modulo operator
for a positive modulus is subtraction of the floored multiple, and the
euclidean vector norm of numpy is the square root of the sum of squares. -/

/-- Embeds math.atan2 y x, with range (-pi, pi], as the complex argument. -/
noncomputable def atan2 (y x : ℝ) : ℝ := Complex.arg ⟨x, y⟩

/-- Embeds math.degrees: radians to degrees. -/
noncomputable def toDeg (r : ℝ) : ℝ := r * 180 / Real.pi

/-- Embeds math.radians: degrees to radians. -/
noncomputable def toRad (d : ℝ) : ℝ := d * Real.pi / 180

/-- Embeds the Python float modulo operator for a positive modulus b:
a - b * floor (a / b), which lies in the interval from 0 inclusive to b
exclusive. -/
noncomputable def fmod (a b : ℝ) : ℝ := a - b * ⌊a / b⌋

/-- Embeds the euclidean norm of numpy.linalg.norm on a 2-vector. -/
noncomputable def norm2 (v : ℝ × ℝ) : ℝ := Real.sqrt (v.1 ^ 2 + v.2 ^ 2)

/-- The shortest signed angular difference in degrees: the source idiom
(x + 180) mod 360 - 180, with values in the interval from -180 inclusive
to 180 exclusive. -/
noncomputable def wrap180 (x : ℝ) : ℝ := fmod (x + 180) 360 - 180

/-! ## Track kinematic smoother, from TrackSmoother in gui/core/kinematics.py -/

/-- Configuration parameters read by TrackSmoother from its config dict,
one field per lookup in the source. -/
structure SmootherCfg where
  h_alpha_min : ℝ
  h_alpha_max : ℝ
  h_speed_ref : ℝ
  jitter_frames : ℕ
  jitter_radius : ℝ
  min_speed : ℝ
  speed_ema_alpha : ℝ
  max_jump : ℝ

/-- The default configuration values of the source: heading EMA alpha
bounds 0.05 and 0.6, speed reference 5.0 m per s, jitter window of 8
frames and radius 0.6 m, minimum raw speed 0.1, speed EMA alpha 0.4 and
maximum per-update heading jump of 5 degrees. -/
noncomputable def defaultCfg : SmootherCfg :=
  ⟨0.05, 0.6, 5.0, 8, 0.6, 0.1, 0.4, 5⟩

/-- Mutable per-track state of TrackSmoother: smoothed speed (None before
the first estimate), smoothed heading unit vector, intermediate velocity
direction vector, the bounded position history (maxlen 8) and the bounded
jitter window. -/
structure SmootherState where
  speed_state : Option ℝ
  heading_vec_state : Option (ℝ × ℝ)
  velocity_vec_state : Option (ℝ × ℝ)
  pos_history : List (ℝ × ℝ)
  jitter_hist : List (ℝ × ℝ)

/-- The state of a freshly constructed TrackSmoother: everything unset,
both history windows empty. -/
def initState : SmootherState := ⟨none, none, none, [], []⟩

/-- Record returned by TrackSmoother.update. -/
structure UpdateResult where
  speed_kmh : ℝ
  heading : Option ℝ
  default_heading : Bool

/-- Appending to a collections.deque with a maximum length: the oldest
entries are dropped from the front once the bound is exceeded. -/
def pushBounded (n : ℕ) (l : List (ℝ × ℝ)) (x : ℝ × ℝ) : List (ℝ × ℝ) :=
  let grown := l ++ [x]
  grown.drop (grown.length - n)

/-- The spread of a list of coordinates: numpy max minus numpy min over a
nonempty list (0 for the empty list, which the callers never pass). -/
noncomputable def extent (l : List ℝ) : ℝ :=
  match l with
  | [] => 0
  | x :: xs => xs.foldl max x - xs.foldl min x

/-- Embeds the Python truthiness idiom returning the stored speed when it
is set and nonzero, and 0.0 otherwise. -/
noncomputable def pyTruthySpeed (s : Option ℝ) : ℝ :=
  match s with
  | none => 0
  | some v => if v = 0 then 0 else v

/-- Embeds TrackSmoother._vec_to_deg: atan2 of the vector components,
converted to degrees and shifted into the interval from 0 to 360. -/
noncomputable def vec_to_deg (v : ℝ × ℝ) : ℝ := fmod (toDeg (atan2 v.2 v.1) + 360) 360

/-- Embeds TrackSmoother._check_jitter: at least two positions in the
jitter window whose per-axis spreads, combined as a vector norm, stay
below the configured radius converted to pixels. -/
noncomputable def check_jitter (cfg : SmootherCfg) (jh : List (ℝ × ℝ)) (px_per_m : ℝ) : Prop :=
  2 ≤ jh.length ∧
    norm2 (extent (jh.map Prod.fst), extent (jh.map Prod.snd)) < cfg.jitter_radius * px_per_m

noncomputable instance (cfg : SmootherCfg) (jh : List (ℝ × ℝ)) (px_per_m : ℝ) :
    Decidable (check_jitter cfg jh px_per_m) := by
  unfold check_jitter; infer_instance

/-- Embeds TrackSmoother._smooth_speed: EMA of the raw speed against the
stored state, initialised directly from the first raw value. -/
noncomputable def smooth_speed (cfg : SmootherCfg) (speed_state : Option ℝ) (raw : ℝ) : ℝ :=
  match speed_state with
  | none => raw
  | some s => cfg.speed_ema_alpha * raw + (1 - cfg.speed_ema_alpha) * s

/-- Embeds TrackSmoother._compute_regression_heading.  The direction
fitted by cv2.fitLine is an external least-squares routine and is passed
in as the function fitLine; the guards (fewer than 3 points, first and
last point less than 2 px apart), the disambiguation by dot product with
the window displacement and the angle extraction follow the source. -/
noncomputable def compute_regression_heading (fitLine : List (ℝ × ℝ) → ℝ × ℝ)
    (hist : List (ℝ × ℝ)) : Option ℝ :=
  if hist.length < 3 then none
  else
    let p0 := hist.headI
    let pl := hist.getLastD (0, 0)
    if norm2 (pl.1 - p0.1, pl.2 - p0.2) < 2 then none
    else
      let v := fitLine hist
      let disp := (pl.1 - p0.1, pl.2 - p0.2)
      let w := if disp.1 * v.1 + disp.2 * v.2 < 0 then (-v.1, -v.2) else v
      some (vec_to_deg w)

/-- Embeds TrackSmoother._smooth_heading.  The raw heading becomes a unit
vector, is low-passed through the velocity-vector EMA (alpha 0.25) with
renormalisation, then blended with the stored heading vector using the
speed-adaptive alpha; the resulting angle change against the previous
heading is wrapped to the shortest signed difference and clamped to the
configured maximum jump; the resulting vector is stored.  Returns the new
heading in degrees together with the updated state. -/
noncomputable def smooth_heading (cfg : SmootherCfg) (st : SmootherState)
    (raw_deg speed_kmh : ℝ) : ℝ × SmootherState :=
  let rad := toRad raw_deg
  let curr0 : ℝ × ℝ := (Real.cos rad, Real.sin rad)
  let vel : ℝ × ℝ :=
    match st.velocity_vec_state with
    | none => curr0
    | some v =>
      let w : ℝ × ℝ := (0.25 * curr0.1 + (1 - 0.25) * v.1, 0.25 * curr0.2 + (1 - 0.25) * v.2)
      (w.1 / norm2 w, w.2 / norm2 w)
  match st.heading_vec_state with
  | none =>
    (vec_to_deg vel, { st with velocity_vec_state := some vel, heading_vec_state := some vel })
  | some hv =>
    let speed_ms := speed_kmh / 3.6
    let ratio := min 1 (speed_ms / cfg.h_speed_ref)
    let alpha := cfg.h_alpha_min + (cfg.h_alpha_max - cfg.h_alpha_min) * ratio
    let nv0 : ℝ × ℝ := (alpha * vel.1 + (1 - alpha) * hv.1, alpha * vel.2 + (1 - alpha) * hv.2)
    let nv : ℝ × ℝ := (nv0.1 / norm2 nv0, nv0.2 / norm2 nv0)
    let target0 := vec_to_deg nv
    let prev := vec_to_deg hv
    let delta := wrap180 (target0 - prev)
    let target :=
      if |delta| > cfg.max_jump then
        fmod (prev + min cfg.max_jump (max (-cfg.max_jump) delta) + 360) 360
      else target0
    let r_final := toRad target
    (target,
     { st with velocity_vec_state := some vel,
               heading_vec_state := some (Real.cos r_final, Real.sin r_final) })

/-- Embeds TrackSmoother._apply_snapping: if the shortest signed angular
difference between the current and the guideline heading is below 15
degrees, move the heading 30 percent of that difference toward the
guideline and renormalise to the interval from 0 to 360; otherwise return
the heading unchanged. -/
noncomputable def apply_snapping (current_heading svg_heading : ℝ) : ℝ :=
  let diff := wrap180 (current_heading - svg_heading)
  if |diff| < 15 then fmod (current_heading - diff * 0.3 + 360) 360 else current_heading

/-- Embeds TrackSmoother.update.  Statement order follows the source: the
physics speed gate with early return, the pushes into both windows, jitter
detection, raw speed and raw heading extraction (regression first, then
two-point bearing above half a pixel), speed smoothing, and the heading
decision cascade with optional guideline snapping. -/
noncomputable def update (cfg : SmootherCfg) (fitLine : List (ℝ × ℝ) → ℝ × ℝ)
    (st : SmootherState) (current_sat_pos : ℝ × ℝ) (dt px_per_m : ℝ)
    (svg_heading : Option ℝ) : UpdateResult × SmootherState :=
  if 0 < dt ∧ st.pos_history ≠ [] ∧
      norm2 (current_sat_pos.1 - (st.pos_history.getLastD (0, 0)).1,
             current_sat_pos.2 - (st.pos_history.getLastD (0, 0)).2) / px_per_m / dt * 3.6 > 200 then
    ({ speed_kmh := pyTruthySpeed st.speed_state,
       heading := st.heading_vec_state.map vec_to_deg,
       default_heading := false }, st)
  else
    let pos_history := pushBounded 8 st.pos_history current_sat_pos
    let jitter_hist := pushBounded cfg.jitter_frames st.jitter_hist current_sat_pos
    let is_jittering := check_jitter cfg jitter_hist px_per_m
    let raw :=
      if 0 < dt ∧ 2 ≤ pos_history.length then
        let prev := pos_history.dropLast.getLastD (0, 0)
        let dist_px := norm2 (current_sat_pos.1 - prev.1, current_sat_pos.2 - prev.2)
        let raw_speed := dist_px / px_per_m / dt * 3.6
        let raw_heading :=
          match compute_regression_heading fitLine pos_history with
          | some r => some r
          | none =>
            if dist_px > 0.5 then
              some (fmod (toDeg (atan2 (current_sat_pos.2 - prev.2)
                                       (current_sat_pos.1 - prev.1)) + 360) 360)
            else none
        (raw_speed, raw_heading)
      else ((0 : ℝ), (none : Option ℝ))
    let raw_speed := raw.1
    let raw_heading := raw.2
    let speed' := smooth_speed cfg st.speed_state raw_speed
    let st1 : SmootherState :=
      { st with pos_history := pos_history, jitter_hist := jitter_hist,
                speed_state := some speed' }
    if raw_speed > cfg.min_speed ∧ ¬ is_jittering ∧ raw_heading ≠ none then
      let sh := smooth_heading cfg st1 (raw_heading.getD 0) raw_speed
      let fh :=
        match svg_heading with
        | some s => apply_snapping sh.1 s
        | none => sh.1
      ({ speed_kmh := pyTruthySpeed (some speed'), heading := some fh,
         default_heading := false }, sh.2)
    else
      match st1.heading_vec_state with
      | some hv =>
        ({ speed_kmh := pyTruthySpeed (some speed'), heading := some (vec_to_deg hv),
           default_heading := false }, st1)
      | none =>
        match svg_heading with
        | some s =>
          ({ speed_kmh := pyTruthySpeed (some speed'), heading := some s,
             default_heading := true }, st1)
        | none =>
          ({ speed_kmh := pyTruthySpeed (some speed'), heading := none,
             default_heading := false }, st1)

/-! ## Guideline index, from SVGParser in gui/core/g_projection.py -/

/-- The parts of SVGParser that get_nearest_heading reads: the valid flag
set by the constructor and the extracted orientation segments, each a pair
of 2D endpoints in map-pixel space. -/
structure SVGParser where
  valid : Bool
  orientation_segments : List ((ℝ × ℝ) × (ℝ × ℝ))

/-- The closest point to pt on the segment from sp1 to sp2, by scalar
projection clamped to the unit interval, as computed inside
SVGParser.get_nearest_heading. -/
noncomputable def closest_point_on_seg (pt sp1 sp2 : ℝ × ℝ) : ℝ × ℝ :=
  let ab := (sp2.1 - sp1.1, sp2.2 - sp1.2)
  let ab_sq := ab.1 ^ 2 + ab.2 ^ 2
  let ap := (pt.1 - sp1.1, pt.2 - sp1.2)
  let t := (ap.1 * ab.1 + ap.2 * ab.2) / ab_sq
  let tc := min 1 (max 0 t)
  (sp1.1 + tc * ab.1, sp1.2 + tc * ab.2)

/-- The comparison d less than min_d of SVGParser.get_nearest_heading,
where min_d is none while it still holds the initial float infinity. -/
def improves (d : ℝ) (min_d : Option ℝ) : Prop :=
  match min_d with
  | none => True
  | some m => d < m

noncomputable instance (d : ℝ) (min_d : Option ℝ) : Decidable (improves d min_d) := by
  unfold improves; cases min_d <;> infer_instance

/-- One loop iteration of SVGParser.get_nearest_heading: the accumulator
holds the minimum distance found so far (none models the initial float
infinity) and the best angle so far.  Near-zero-length segments (squared
length below 1e-6) are skipped; otherwise the distance from the query
point to the clamped closest point on the segment is compared against the
minimum, and on improvement the atan2 angle of the segment direction is
recorded. -/
noncomputable def nearest_step (pt : ℝ × ℝ) (acc : Option ℝ × Option ℝ)
    (seg : (ℝ × ℝ) × (ℝ × ℝ)) : Option ℝ × Option ℝ :=
  let sp1 := seg.1
  let sp2 := seg.2
  let ab := (sp2.1 - sp1.1, sp2.2 - sp1.2)
  let ab_sq := ab.1 ^ 2 + ab.2 ^ 2
  if ab_sq < 1e-6 then acc
  else
    let closest := closest_point_on_seg pt sp1 sp2
    let d := norm2 (pt.1 - closest.1, pt.2 - closest.2)
    if improves d acc.1 then (some d, some (toDeg (atan2 ab.2 ab.1)))
    else acc

/-- Embeds SVGParser.get_nearest_heading: returns none when the index
failed to load or no segments exist, otherwise scans all segments with
nearest_step and returns the winning angle shifted into the interval from
0 to 360, or none when every segment was degenerate. -/
noncomputable def get_nearest_heading (P : SVGParser) (pt : ℝ × ℝ) : Option ℝ :=
  if P.valid = false ∨ P.orientation_segments = [] then none
  else
    let r := P.orientation_segments.foldl (nearest_step pt) (none, none)
    match r.2 with
    | some best_ang => some (fmod (best_ang + 360) 360)
    | none => none

/-! ## Helper lemmas about the modular-arithmetic primitives -/

lemma fmod_eq_mul_fract (a b : ℝ) (hb : b ≠ 0) : fmod a b = b * Int.fract (a / b) := by
  unfold fmod Int.fract
  have hba : b * (a / b) = a := by field_simp
  rw [mul_sub, hba]

lemma fmod_nonneg (a b : ℝ) (hb : 0 < b) : 0 ≤ fmod a b := by
  rw [fmod_eq_mul_fract a b (ne_of_gt hb)]
  exact mul_nonneg hb.le (Int.fract_nonneg _)

lemma fmod_lt (a b : ℝ) (hb : 0 < b) : fmod a b < b := by
  rw [fmod_eq_mul_fract a b (ne_of_gt hb)]
  calc b * Int.fract (a / b) < b * 1 := by
        exact (mul_lt_mul_left hb).mpr (Int.fract_lt_one _)
    _ = b := mul_one b

lemma fmod_eq_self (a b : ℝ) (h0 : 0 ≤ a) (h1 : a < b) : fmod a b = a := by
  have hb : 0 < b := lt_of_le_of_lt h0 h1
  unfold fmod
  have : ⌊a / b⌋ = 0 := by
    rw [Int.floor_eq_zero_iff]
    constructor
    · exact div_nonneg h0 hb.le
    · rwa [div_lt_one hb]
  rw [this]
  simp

lemma fmod_add_int_mul (a b : ℝ) (k : ℤ) : fmod (a + b * k) b = fmod a b := by
  unfold fmod
  by_cases hb : b = 0
  · simp [hb]
  · have hdiv : (a + b * k) / b = a / b + k := by field_simp; ring
    rw [hdiv, Int.floor_add_int]
    push_cast
    ring

lemma fmod_eq_of_rep (a b r : ℝ) (k : ℤ) (hr : a = r + b * k) (h0 : 0 ≤ r) (h1 : r < b) :
    fmod a b = r := by
  rw [hr, fmod_add_int_mul, fmod_eq_self r b h0 h1]

lemma fmod_sub_int (a b : ℝ) : ∃ k : ℤ, fmod a b = a + b * k := by
  exact ⟨-⌊a / b⌋, by unfold fmod; push_cast; ring⟩

lemma wrap180_mem (x : ℝ) : -180 ≤ wrap180 x ∧ wrap180 x < 180 := by
  unfold wrap180
  constructor
  · have := fmod_nonneg (x + 180) 360 (by norm_num)
    linarith
  · have := fmod_lt (x + 180) 360 (by norm_num)
    linarith

lemma wrap180_eq_self (x : ℝ) (h0 : -180 ≤ x) (h1 : x < 180) : wrap180 x = x := by
  unfold wrap180
  rw [fmod_eq_self (x + 180) 360 (by linarith) (by linarith)]
  ring

lemma wrap180_add_int_mul (x : ℝ) (k : ℤ) : wrap180 (x + 360 * k) = wrap180 x := by
  unfold wrap180
  have h : x + 360 * (k : ℝ) + 180 = (x + 180) + 360 * k := by ring
  rw [h, fmod_add_int_mul]

lemma wrap180_sub_int (x : ℝ) : ∃ k : ℤ, wrap180 x = x + 360 * k := by
  obtain ⟨k, hk⟩ := fmod_sub_int (x + 180) 360
  exact ⟨k, by unfold wrap180; rw [hk]; ring⟩

lemma vec_to_deg_nonneg (v : ℝ × ℝ) : 0 ≤ vec_to_deg v :=
  fmod_nonneg _ _ (by norm_num)

lemma vec_to_deg_lt (v : ℝ × ℝ) : vec_to_deg v < 360 :=
  fmod_lt _ _ (by norm_num)

lemma norm2_zero_right (x : ℝ) : norm2 (x, 0) = |x| := by
  unfold norm2
  simp [Real.sqrt_sq_eq_abs]

lemma norm2_nonneg (v : ℝ × ℝ) : 0 ≤ norm2 v := Real.sqrt_nonneg _

/-! ## Claims about the parallax model -/

/-- Claim C1, as stated, is false: with z_cam = 10, camera footprint at
the origin, p = (100, 0) and h = 9.995 (so 0 < h < z_cam), the corrected
point is (0.05, 0) and the projection hits its near-singular fallback
(the gap 0.005 is below the 0.01 threshold), returning (0.05, 0) instead
of p — off by far more than any floating-point tolerance. -/
theorem C1_counterexample :
    0 < (9995 / 1000 : ℚ) ∧ (9995 / 1000 : ℚ) < 10 ∧
    parallax_project_real_to_ground ⟨10, (0, 0)⟩
      (parallax_correct_ground_to_real ⟨10, (0, 0)⟩ (100, 0) (9995 / 1000))
      (9995 / 1000) ≠ (100, 0) := by
  refine ⟨by norm_num, by norm_num, ?_⟩
  unfold parallax_correct_ground_to_real parallax_project_real_to_ground
  norm_num [Prod.ext_iff, abs_of_pos]

/-- Claim C1, amended: the parallax round trip
parallax_project_real_to_ground (parallax_correct_ground_to_real p h) h = p
holds exactly for every height h with 0 < h and h at most z_cam - 0.01,
that is whenever the 0.01 near-singular fallback of the projection is not
triggered; the two operations are inverses on that h-range. -/
theorem C1_parallax_round_trip (P : Parallax) (p : ℚ × ℚ) (h : ℚ)
    (hz : 0 < P.z_cam) (h0 : 0 < h) (hh : h ≤ P.z_cam - 1 / 100) :
    parallax_project_real_to_ground P (parallax_correct_ground_to_real P p h) h = p := by
  have hzne : P.z_cam ≠ 0 := ne_of_gt hz
  have hgap : (1 : ℚ) / 100 ≤ P.z_cam - h := by linarith
  have hzh : P.z_cam - h ≠ 0 := by
    intro hc
    rw [hc] at hgap
    norm_num at hgap
  have habs : ¬ |P.z_cam - h| < 1 / 100 := by
    rw [not_lt, abs_of_pos (by linarith)]
    exact hgap
  unfold parallax_correct_ground_to_real parallax_project_real_to_ground
  rw [if_neg hzne, if_neg habs]
  dsimp only
  apply Prod.ext
  · field_simp
    ring
  · field_simp
    ring

/-- Witness for C1: the spec's own concrete scenario, z_cam = 10 m,
camera footprint (0,0), object height 1.6 m, apparent point (100, 0). -/
theorem C1_witness :
    parallax_project_real_to_ground ⟨10, (0, 0)⟩
      (parallax_correct_ground_to_real ⟨10, (0, 0)⟩ (100, 0) (8 / 5)) (8 / 5) = (100, 0) :=
  C1_parallax_round_trip ⟨10, (0, 0)⟩ (100, 0) (8 / 5) (by norm_num) (by norm_num) (by norm_num)

/-! ## Claims about the homography construction -/

lemma mat3_mul_inv (H : Mat3) (hd : H.det ≠ 0) : Mat3.mul H H.inv = Mat3.one := by
  unfold Mat3.det at hd
  unfold Mat3.mul Mat3.inv Mat3.smul Mat3.adjugate Mat3.one Mat3.det
  simp only [Mat3.mk.injEq]
  refine ⟨?_, ?_, ?_, ?_, ?_, ?_, ?_, ?_, ?_⟩ <;> field_simp <;> ring

/-- Claim C2, as stated, is false on the error class: constructing with
the singular all-zero homography does fail fast at construction, but the
exception raised by numpy matrix inversion is LinAlgError, which is not
the descriptive ConfigError named by the specification (no ConfigError
class exists in the repository). -/
theorem C2_counterexample :
    init_matrices (some ⟨0, 0, 0, 0, 0, 0, 0, 0, 0⟩) = Except.error PyError.linAlgError ∧
    PyError.linAlgError ≠ PyError.configError := by
  constructor
  · have hdet : Mat3.det ⟨0, 0, 0, 0, 0, 0, 0, 0, 0⟩ = 0 := by
      unfold Mat3.det
      norm_num
    simp [init_matrices, np_linalg_inv, hdet]
  · intro hc
    cases hc

/-- Claim C2, amended: constructing the ground-projection core with a
singular (determinant exactly 0) or missing homography H fails fast at
construction time — numpy matrix inversion raises LinAlgError (not a
ConfigError, which does not exist in the code; LinAlgError is the only
error class this path can raise) — and the core never silently
substitutes an identity matrix: on success the stored inverse is the
exact inverse of H. -/
theorem C2_fail_fast :
    (∀ H : Mat3, H.det = 0 → init_matrices (some H) = Except.error PyError.linAlgError) ∧
    init_matrices none = Except.error PyError.linAlgError ∧
    (∀ (H? : Option Mat3) (err : PyError),
      init_matrices H? = Except.error err → err = PyError.linAlgError) ∧
    (∀ H : Mat3, H.det ≠ 0 →
      init_matrices (some H) = Except.ok (H, H.inv) ∧ Mat3.mul H H.inv = Mat3.one) := by
  refine ⟨?_, rfl, ?_, ?_⟩
  · intro H hdet
    simp [init_matrices, np_linalg_inv, hdet]
  · intro H? err hmk
    cases H? with
    | none =>
      simp [init_matrices] at hmk
      exact hmk.symm
    | some H =>
      by_cases hdet : H.det = 0
      · simp [init_matrices, np_linalg_inv, hdet] at hmk
        exact hmk.symm
      · simp [init_matrices, np_linalg_inv, hdet] at hmk
  · intro H hdet
    exact ⟨by simp [init_matrices, np_linalg_inv, hdet], mat3_mul_inv H hdet⟩

/-- Witness for C2: the identity homography has determinant 1, so
construction succeeds and stores the exact inverse. -/
theorem C2_witness :
    init_matrices (some Mat3.one) = Except.ok (Mat3.one, Mat3.one.inv) ∧
    Mat3.mul Mat3.one Mat3.one.inv = Mat3.one :=
  C2_fail_fast.2.2.2 Mat3.one (by unfold Mat3.det Mat3.one; norm_num)

/-! ## Helper lemmas about the smoother -/

lemma pyTruthySpeed_nonneg (s : Option ℝ) (hs : ∀ v, s = some v → 0 ≤ v) :
    0 ≤ pyTruthySpeed s := by
  cases s with
  | none => simp [pyTruthySpeed]
  | some v =>
    by_cases hv : v = 0 <;> simp [pyTruthySpeed, hv]
    exact hs v rfl

lemma smooth_speed_nonneg (cfg : SmootherCfg) (ss : Option ℝ) (raw : ℝ)
    (hss : ∀ v, ss = some v → 0 ≤ v) (ha0 : 0 ≤ cfg.speed_ema_alpha)
    (ha1 : cfg.speed_ema_alpha ≤ 1) (hraw : 0 ≤ raw) : 0 ≤ smooth_speed cfg ss raw := by
  cases ss with
  | none => simpa [smooth_speed] using hraw
  | some s =>
    have hs : 0 ≤ s := hss s rfl
    simp only [smooth_speed]
    have h1 : 0 ≤ cfg.speed_ema_alpha * raw := mul_nonneg ha0 hraw
    have h2 : 0 ≤ (1 - cfg.speed_ema_alpha) * s := mul_nonneg (by linarith) hs
    linarith

lemma raw_speed_nonneg (v : ℝ × ℝ) (ppm dt : ℝ) (hppm : 0 ≤ ppm) (hdt : 0 ≤ dt) :
    0 ≤ norm2 v / ppm / dt * 3.6 := by
  have h1 : 0 ≤ norm2 v / ppm := div_nonneg (norm2_nonneg v) hppm
  have h2 : 0 ≤ norm2 v / ppm / dt := div_nonneg h1 hdt
  linarith

lemma smooth_heading_speed_state (cfg : SmootherCfg) (st : SmootherState) (raw sp : ℝ) :
    (smooth_heading cfg st raw sp).2.speed_state = st.speed_state := by
  unfold smooth_heading
  cases st.heading_vec_state <;> simp

/-! ## Claims about the smoother -/

/-- Claim C3: the physics speed gate — when a prior position exists, dt is
positive and the instantaneous speed implied by the pixel displacement
(converted to meters via px_per_m) exceeds 200 km/h, update rejects the
input: it returns the previous smoothed speed (0 when unset), the
previous smoothed heading (none when unset) with default_heading false,
and leaves the whole smoother state unchanged. -/
theorem C3_physics_gate (cfg : SmootherCfg) (fitLine : List (ℝ × ℝ) → ℝ × ℝ)
    (st : SmootherState) (pos : ℝ × ℝ) (dt ppm : ℝ) (svg : Option ℝ)
    (hdt : 0 < dt) (hne : st.pos_history ≠ [])
    (hfast : norm2 (pos.1 - (st.pos_history.getLastD (0, 0)).1,
                    pos.2 - (st.pos_history.getLastD (0, 0)).2) / ppm / dt * 3.6 > 200) :
    update cfg fitLine st pos dt ppm svg =
      ({ speed_kmh := pyTruthySpeed st.speed_state,
         heading := st.heading_vec_state.map vec_to_deg,
         default_heading := false }, st) := by
  unfold update
  rw [if_pos ⟨hdt, hne, hfast⟩]

/-- Witness for C3: a track whose only previous position is the origin
sees a jump to (100, 0) within dt = 1 s at 1 px per meter — 360 km/h —
and the update is rejected with speed 0, no heading, state untouched. -/
theorem C3_witness :
    update defaultCfg (fun _ => (1, 0)) ⟨none, none, none, [(0, 0)], [(0, 0)]⟩
      (100, 0) 1 1 none =
      ({ speed_kmh := pyTruthySpeed none, heading := Option.map vec_to_deg none,
         default_heading := false },
       ⟨none, none, none, [(0, 0)], [(0, 0)]⟩) := by
  have hfast : norm2 (((100 : ℝ), (0 : ℝ)).1 -
        (([((0 : ℝ), (0 : ℝ))] : List (ℝ × ℝ)).getLastD (0, 0)).1,
      ((100 : ℝ), (0 : ℝ)).2 - (([((0 : ℝ), (0 : ℝ))] : List (ℝ × ℝ)).getLastD (0, 0)).2) /
        1 / 1 * 3.6 > 200 := by
    have he : (((100 : ℝ), (0 : ℝ)).1 -
        (([((0 : ℝ), (0 : ℝ))] : List (ℝ × ℝ)).getLastD (0, 0)).1,
        ((100 : ℝ), (0 : ℝ)).2 - (([((0 : ℝ), (0 : ℝ))] : List (ℝ × ℝ)).getLastD (0, 0)).2) =
        ((100 : ℝ), (0 : ℝ)) := by
      simp
    rw [he, norm2_zero_right]
    norm_num
  exact C3_physics_gate defaultCfg (fun _ => (1, 0)) ⟨none, none, none, [(0, 0)], [(0, 0)]⟩
    (100, 0) 1 1 none (by norm_num) (by simp) hfast

/-- Claim C9: on the very first update of a freshly constructed smoother,
for every configuration, position, dt and px_per_m, the physics gate never
rejects, the returned smoothed speed is 0, and the returned heading is the
supplied guideline heading with default_heading true when one is given,
and none with default_heading false otherwise. -/
theorem C9_first_observation (cfg : SmootherCfg) (fitLine : List (ℝ × ℝ) → ℝ × ℝ)
    (pos : ℝ × ℝ) (dt ppm : ℝ) (svg : Option ℝ) :
    (update cfg fitLine initState pos dt ppm svg).1.speed_kmh = 0 ∧
    (update cfg fitLine initState pos dt ppm svg).1.heading = svg ∧
    (update cfg fitLine initState pos dt ppm svg).1.default_heading = svg.isSome := by
  cases svg with
  | none => simp [update, initState, pushBounded, smooth_speed, pyTruthySpeed]
  | some s => simp [update, initState, pushBounded, smooth_speed, pyTruthySpeed]

lemma pyTruthySpeed_some_nonneg (x : ℝ) (hx : 0 ≤ x) : 0 ≤ pyTruthySpeed (some x) := by
  by_cases h : x = 0 <;> simp [pyTruthySpeed, h, hx]

/-- Claim C10: every record returned by update carries a non-negative
speed (the field is a number, never null, by the shape of UpdateResult):
with positive px_per_m and a speed EMA factor between 0 and 1, raw speeds
are norms divided by positive dt and px_per_m, the EMA of a non-negative
raw value against a non-negative stored state stays non-negative, and an
unset or zero stored speed is reported as 0; the non-negativity of the
stored smoothed speed is preserved by every update. -/
theorem C10_speed_nonneg (cfg : SmootherCfg) (fitLine : List (ℝ × ℝ) → ℝ × ℝ)
    (st : SmootherState) (pos : ℝ × ℝ) (dt ppm : ℝ) (svg : Option ℝ)
    (hst : ∀ s, st.speed_state = some s → 0 ≤ s)
    (hppm : 0 < ppm) (ha0 : 0 ≤ cfg.speed_ema_alpha) (ha1 : cfg.speed_ema_alpha ≤ 1) :
    0 ≤ (update cfg fitLine st pos dt ppm svg).1.speed_kmh ∧
    ∀ s, (update cfg fitLine st pos dt ppm svg).2.speed_state = some s → 0 ≤ s := by
  unfold update
  split_ifs with hgate
  · exact ⟨pyTruthySpeed_nonneg st.speed_state hst, hst⟩
  · dsimp only
    split_ifs with h1 h2 h3 <;>
    refine ⟨?_, fun s hs => ?_⟩
    all_goals rcases hhv : st.heading_vec_state with _ | hv <;> rcases svg with _ | sg
    all_goals try simp only [hhv] at hs
    all_goals try dsimp only at hs
    all_goals try simp only [smooth_heading_speed_state] at hs
    all_goals try dsimp only at hs
    all_goals try dsimp only
    all_goals
      first
        | (injection hs with h4
           rw [← h4]
           refine smooth_speed_nonneg cfg st.speed_state _ hst ha0 ha1 ?_
           first
             | exact raw_speed_nonneg _ ppm dt (le_of_lt hppm) (le_of_lt h1.1)
             | norm_num)
        | (refine pyTruthySpeed_some_nonneg _ (smooth_speed_nonneg cfg st.speed_state _ hst ha0 ha1 ?_)
           first
             | exact raw_speed_nonneg _ ppm dt (le_of_lt hppm) (le_of_lt h1.1)
             | norm_num)

/-- Witness for C10: a fresh track observed at the origin with dt = 1 and
1 px per meter yields a non-negative reported and stored speed. -/
theorem C10_witness :
    0 ≤ (update defaultCfg (fun _ => (1, 0)) initState (0, 0) 1 1 none).1.speed_kmh ∧
    ∀ s, (update defaultCfg (fun _ => (1, 0)) initState (0, 0) 1 1 none).2.speed_state =
      some s → 0 ≤ s :=
  C10_speed_nonneg defaultCfg (fun _ => (1, 0)) initState (0, 0) 1 1 none
    (fun s h => by simp [initState] at h) (by norm_num) (by norm_num [defaultCfg])
    (by norm_num [defaultCfg])

/-- Claim C5: jitter freeze — whenever the physics gate does not fire,
the jitter window after the push is detected as jittering, and a previous
smoothed heading vector exists, update returns exactly that previous
heading with default_heading false and leaves the stored heading vector
untouched; hence the heading stays frozen across any number of
consecutive jittering updates. -/
theorem C5_jitter_freeze (cfg : SmootherCfg) (fitLine : List (ℝ × ℝ) → ℝ × ℝ)
    (st : SmootherState) (pos : ℝ × ℝ) (dt ppm : ℝ) (svg : Option ℝ) (hv : ℝ × ℝ)
    (hhv : st.heading_vec_state = some hv)
    (hgate : ¬(0 < dt ∧ st.pos_history ≠ [] ∧
      norm2 (pos.1 - (st.pos_history.getLastD (0, 0)).1,
             pos.2 - (st.pos_history.getLastD (0, 0)).2) / ppm / dt * 3.6 > 200))
    (hjit : check_jitter cfg (pushBounded cfg.jitter_frames st.jitter_hist pos) ppm) :
    (update cfg fitLine st pos dt ppm svg).1.heading = some (vec_to_deg hv) ∧
    (update cfg fitLine st pos dt ppm svg).1.default_heading = false ∧
    (update cfg fitLine st pos dt ppm svg).2.heading_vec_state = some hv := by
  unfold update
  rw [if_neg hgate]
  simp only [hjit, hhv, not_true_eq_false, and_false, false_and, ite_false, if_false]
  simp [hhv]

/-- Witness for C5: a stationary track (two identical positions at the
origin, well inside the 0.6 m jitter radius) with a stored heading along
the positive x axis keeps exactly that heading. -/
theorem C5_witness :
    (update defaultCfg (fun _ => (1, 0)) ⟨none, some (1, 0), some (1, 0), [(0, 0)], [(0, 0)]⟩
        (0, 0) 1 1 none).1.heading = some (vec_to_deg (1, 0)) ∧
    (update defaultCfg (fun _ => (1, 0)) ⟨none, some (1, 0), some (1, 0), [(0, 0)], [(0, 0)]⟩
        (0, 0) 1 1 none).1.default_heading = false ∧
    (update defaultCfg (fun _ => (1, 0)) ⟨none, some (1, 0), some (1, 0), [(0, 0)], [(0, 0)]⟩
        (0, 0) 1 1 none).2.heading_vec_state = some (1, 0) := by
  refine C5_jitter_freeze defaultCfg (fun _ => (1, 0)) _ (0, 0) 1 1 none (1, 0) rfl ?_ ?_
  · intro hc
    have hfast := hc.2.2
    simp [norm2] at hfast
    norm_num at hfast
  · constructor
    · simp [pushBounded, defaultCfg]
    · simp only [pushBounded, defaultCfg]
      norm_num [extent, norm2]

lemma clamp_step_bound (prev target mj : ℝ) (hmj : 0 ≤ mj) :
    |wrap180 ((if |wrap180 (target - prev)| > mj then
        fmod (prev + min mj (max (-mj) (wrap180 (target - prev))) + 360) 360
      else target) - prev)| ≤ mj := by
  split_ifs with hcl
  · have hd := wrap180_mem (target - prev)
    have habs : |wrap180 (target - prev)| ≤ 180 :=
      abs_le.mpr ⟨hd.1, le_of_lt hd.2⟩
    have hmj180 : mj < 180 := lt_of_lt_of_le hcl habs
    set c := min mj (max (-mj) (wrap180 (target - prev))) with hc
    have hc1 : -mj ≤ c := le_min (by linarith) (le_max_left _ _)
    have hc2 : c ≤ mj := min_le_left _ _
    obtain ⟨k, hk⟩ := fmod_sub_int (prev + c + 360) 360
    have hrw : fmod (prev + c + 360) 360 - prev = c + 360 * ((k + 1 : ℤ) : ℝ) := by
      rw [hk]
      push_cast
      ring
    rw [hrw, wrap180_add_int_mul, wrap180_eq_self c (by linarith) (by linarith)]
    exact abs_le.mpr ⟨by linarith, hc2⟩
  · exact not_lt.mp hcl

/-- Claim C4: heading jump clamp — whenever a previous smoothed heading
vector exists and the configured maximum jump is non-negative, the
shortest signed angular difference between the heading returned by one
heading-smoothing step and the previous heading has magnitude at most
max_jump degrees (5 by default); in particular a synthetic 180-degree
reversal moves the heading by at most 5 degrees per update. -/
theorem C4_heading_jump_clamp (cfg : SmootherCfg) (st : SmootherState)
    (raw_deg speed_kmh : ℝ) (hv : ℝ × ℝ)
    (hhv : st.heading_vec_state = some hv) (hmj : 0 ≤ cfg.max_jump) :
    |wrap180 ((smooth_heading cfg st raw_deg speed_kmh).1 - vec_to_deg hv)| ≤ cfg.max_jump := by
  unfold smooth_heading
  rw [hhv]
  dsimp only
  exact clamp_step_bound (vec_to_deg hv) _ cfg.max_jump hmj

/-- Witness for C4: a track heading along the positive x axis fed a raw
heading of 180 degrees (a full reversal) at 100 km/h changes its heading
by at most the default 5 degrees. -/
theorem C4_witness :
    |wrap180 ((smooth_heading defaultCfg ⟨none, some (1, 0), some (1, 0), [], []⟩ 180 100).1 -
      vec_to_deg (1, 0))| ≤ defaultCfg.max_jump :=
  C4_heading_jump_clamp defaultCfg ⟨none, some (1, 0), some (1, 0), [], []⟩ 180 100 (1, 0)
    rfl (by norm_num [defaultCfg])

lemma smooth_heading_fst_nonneg_lt (cfg : SmootherCfg) (st : SmootherState) (raw sp : ℝ) :
    0 ≤ (smooth_heading cfg st raw sp).1 ∧ (smooth_heading cfg st raw sp).1 < 360 := by
  unfold smooth_heading
  rcases st.heading_vec_state with _ | hv
  · dsimp only
    exact ⟨vec_to_deg_nonneg _, vec_to_deg_lt _⟩
  · dsimp only
    split_ifs with hcl
    · exact ⟨fmod_nonneg _ _ (by norm_num), fmod_lt _ _ (by norm_num)⟩
    · exact ⟨vec_to_deg_nonneg _, vec_to_deg_lt _⟩

lemma apply_snapping_mem (cur sg : ℝ) (h0 : 0 ≤ cur) (h1 : cur < 360) :
    0 ≤ apply_snapping cur sg ∧ apply_snapping cur sg < 360 := by
  unfold apply_snapping
  dsimp only
  split_ifs with hd
  · exact ⟨fmod_nonneg _ _ (by norm_num), fmod_lt _ _ (by norm_num)⟩
  · exact ⟨h0, h1⟩

/-- Claim C6: guideline snapping — when the shortest signed angular
difference between the smoothed and the guideline heading is below 15
degrees in magnitude, snapping moves the heading exactly 30 percent of
that difference toward the guideline (the remaining difference is 70
percent of the old one) and the result is normalized to the interval
from 0 to 360; otherwise the heading is returned unchanged, so a heading
whose difference is 15 degrees or more is never altered. -/
theorem C6_guideline_snapping (cur sg : ℝ) :
    (|wrap180 (cur - sg)| < 15 →
      wrap180 (apply_snapping cur sg - sg) = 0.7 * wrap180 (cur - sg) ∧
      0 ≤ apply_snapping cur sg ∧ apply_snapping cur sg < 360) ∧
    (¬ |wrap180 (cur - sg)| < 15 → apply_snapping cur sg = cur) := by
  constructor
  · intro hlt
    have hw := abs_lt.mp hlt
    unfold apply_snapping
    dsimp only
    rw [if_pos hlt]
    refine ⟨?_, fmod_nonneg _ _ (by norm_num), fmod_lt _ _ (by norm_num)⟩
    obtain ⟨k, hk⟩ := fmod_sub_int (cur - wrap180 (cur - sg) * 0.3 + 360) 360
    obtain ⟨m, hm⟩ := wrap180_sub_int (cur - sg)
    have hrw : fmod (cur - wrap180 (cur - sg) * 0.3 + 360) 360 - sg
        = 0.7 * wrap180 (cur - sg) + 360 * ((k - m + 1 : ℤ) : ℝ) := by
      push_cast
      linear_combination hk - hm
    rw [hrw, wrap180_add_int_mul,
      wrap180_eq_self (0.7 * wrap180 (cur - sg)) (by linarith) (by linarith)]
  · intro hge
    unfold apply_snapping
    dsimp only
    rw [if_neg hge]

/-- Claim C8, amended: provided every supplied guideline heading is
itself in the interval from 0 to 360 (as the guideline index produces),
the heading field of every record returned by update is either none or a
number of degrees in the half-open interval from 0 inclusive to 360
exclusive, for any state, so for every sequence of update calls. -/
theorem C8_heading_range (cfg : SmootherCfg) (fitLine : List (ℝ × ℝ) → ℝ × ℝ)
    (st : SmootherState) (pos : ℝ × ℝ) (dt ppm : ℝ) (svg : Option ℝ)
    (hsvg : ∀ s, svg = some s → 0 ≤ s ∧ s < 360) :
    (update cfg fitLine st pos dt ppm svg).1.heading = none ∨
    ∃ d, (update cfg fitLine st pos dt ppm svg).1.heading = some d ∧ 0 ≤ d ∧ d < 360 := by
  unfold update
  split_ifs with hgate
  · rcases hhv : st.heading_vec_state with _ | hv
    · left
      simp [hhv]
    · right
      exact ⟨vec_to_deg hv, by simp [hhv], vec_to_deg_nonneg _, vec_to_deg_lt _⟩
  · dsimp only
    split_ifs with h1 h2 h3
    all_goals rcases hhv : st.heading_vec_state with _ | hv <;> rcases svg with _ | sg
    all_goals try dsimp only
    all_goals
      first
        | exact Or.inl rfl
        | exact Or.inr ⟨_, rfl, vec_to_deg_nonneg _, vec_to_deg_lt _⟩
        | exact Or.inr ⟨_, rfl, (hsvg _ rfl).1, (hsvg _ rfl).2⟩
        | exact Or.inr ⟨_, rfl, (smooth_heading_fst_nonneg_lt _ _ _ _).1,
            (smooth_heading_fst_nonneg_lt _ _ _ _).2⟩
        | exact Or.inr ⟨_, rfl,
            (apply_snapping_mem _ _ (smooth_heading_fst_nonneg_lt _ _ _ _).1
              (smooth_heading_fst_nonneg_lt _ _ _ _).2).1,
            (apply_snapping_mem _ _ (smooth_heading_fst_nonneg_lt _ _ _ _).1
              (smooth_heading_fst_nonneg_lt _ _ _ _).2).2⟩

/-- Witness for C6: a heading of 10 degrees against a guideline of 0
degrees (difference 10, inside the 15-degree gate) is pulled to a 7
degree difference. -/
theorem C6_witness :
    wrap180 (apply_snapping 10 0 - 0) = 0.7 * wrap180 (10 - 0) ∧
    0 ≤ apply_snapping 10 0 ∧ apply_snapping 10 0 < 360 :=
  (C6_guideline_snapping 10 0).1 (by rw [wrap180_eq_self] <;> norm_num)

/-- Claim C8, as stated, is false: update passes a caller-supplied
guideline heading through unmodified on the first observation, so feeding
the out-of-range guideline value 400 returns a heading of 400 degrees,
outside the interval from 0 to 360. -/
theorem C8_counterexample :
    (update defaultCfg (fun _ => (1, 0)) initState (0, 0) 1 1 (some 400)).1.heading =
      some 400 ∧ ¬ ((400 : ℝ) < 360) := by
  constructor
  · simp [update, initState, pushBounded, smooth_speed, pyTruthySpeed]
  · norm_num

/-- Witness for C8: with no guideline supplied, the first observation of
a fresh track yields a heading that is none or inside the interval. -/
theorem C8_witness :
    (update defaultCfg (fun _ => (1, 0)) initState (0, 0) 1 1 none).1.heading = none ∨
    ∃ d, (update defaultCfg (fun _ => (1, 0)) initState (0, 0) 1 1 none).1.heading = some d ∧
      0 ≤ d ∧ d < 360 :=
  C8_heading_range defaultCfg (fun _ => (1, 0)) initState (0, 0) 1 1 none
    (fun s h => nomatch h)

/-- Claim C7: nearest heading — the guideline query returns none when the
index failed to load or no segments exist; the closest point on a segment
is computed by scalar projection clamped to the unit interval; and in the
concrete case of a single segment from (0,0) to (10,0) queried at (5,3),
the nearest point is (5,0) and the returned heading (the atan2 angle of
the winning segment direction normalized into the interval from 0 to 360)
is 0 degrees. -/
theorem C7_nearest_heading :
    (∀ (P : SVGParser) (pt : ℝ × ℝ), P.valid = false ∨ P.orientation_segments = [] →
      get_nearest_heading P pt = none) ∧
    closest_point_on_seg (5, 3) (0, 0) (10, 0) = (5, 0) ∧
    get_nearest_heading ⟨true, [((0, 0), (10, 0))]⟩ (5, 3) = some 0 := by
  refine ⟨?_, ?_, ?_⟩
  · intro P pt h
    unfold get_nearest_heading
    rw [if_pos h]
  · unfold closest_point_on_seg
    norm_num [Prod.ext_iff, min_def, max_def]
  · unfold get_nearest_heading
    rw [if_neg (by simp)]
    dsimp only [List.foldl]
    unfold nearest_step
    norm_num [improves, closest_point_on_seg, norm2, toDeg, atan2, min_def, max_def]
    rw [show (⟨10, 0⟩ : ℂ) = ((10 : ℝ) : ℂ) from rfl,
      Complex.arg_ofReal_of_nonneg (by norm_num)]
    norm_num
    exact fmod_eq_of_rep 360 360 0 1 (by norm_num) (by norm_num) (by norm_num)

/-- Witness for C7: an index that failed to load returns none. -/
theorem C7_witness : get_nearest_heading ⟨false, [((0, 0), (1, 0))]⟩ (0, 0) = none :=
  C7_nearest_heading.1 ⟨false, [((0, 0), (1, 0))]⟩ (0, 0) (Or.inl rfl)
